import Mathlib

/-!
Shallow embedding of `src/lib/mongoosePagination.ts` (mongo-pagination):
the date-range filter builder, the field-filter processor, the global
search query builder, and the pagination orchestrator, together with a
reference model of the external aggregation engine, and theorems checking
the specification's claims against these definitions.
-/

namespace MongoPagination

/-- A JavaScript `number`, idealized: `NaN`, the two signed infinities, or an
exact rational (no floating-point rounding is modelled; every quantity the
library manipulates is small enough that rounding never occurs). -/
inductive JsNum where
  | nan
  | posInf
  | negInf
  | fin (q : ℚ)
deriving DecidableEq, Repr

namespace JsNum

/-- JS `+` on numbers (numeric case). -/
def add : JsNum → JsNum → JsNum
  | nan, _ => nan
  | _, nan => nan
  | posInf, negInf => nan
  | negInf, posInf => nan
  | posInf, _ => posInf
  | _, posInf => posInf
  | negInf, _ => negInf
  | _, negInf => negInf
  | fin a, fin b => fin (a + b)

/-- JS `-` on numbers. -/
def sub : JsNum → JsNum → JsNum
  | nan, _ => nan
  | _, nan => nan
  | posInf, posInf => nan
  | negInf, negInf => nan
  | posInf, _ => posInf
  | negInf, _ => negInf
  | _, posInf => negInf
  | _, negInf => posInf
  | fin a, fin b => fin (a - b)

/-- Multiplying an infinity of the given sign by a finite value. -/
def mulInfFin (pos : Bool) (q : ℚ) : JsNum :=
  if q = 0 then nan
  else if 0 < q then (if pos then posInf else negInf)
  else (if pos then negInf else posInf)

/-- JS `*` on numbers. -/
def mul : JsNum → JsNum → JsNum
  | nan, _ => nan
  | _, nan => nan
  | posInf, posInf => posInf
  | posInf, negInf => negInf
  | negInf, posInf => negInf
  | negInf, negInf => posInf
  | posInf, fin q => mulInfFin true q
  | fin q, posInf => mulInfFin true q
  | negInf, fin q => mulInfFin false q
  | fin q, negInf => mulInfFin false q
  | fin a, fin b => fin (a * b)

/-- JS `/` on numbers (with `x/0` giving a signed infinity and `0/0` NaN). -/
def div : JsNum → JsNum → JsNum
  | nan, _ => nan
  | _, nan => nan
  | posInf, posInf => nan
  | posInf, negInf => nan
  | negInf, posInf => nan
  | negInf, negInf => nan
  | posInf, fin q => if q < 0 then negInf else posInf
  | negInf, fin q => if q < 0 then posInf else negInf
  | fin _, posInf => fin 0
  | fin _, negInf => fin 0
  | fin a, fin b =>
      if b = 0 then (if a = 0 then nan else if 0 < a then posInf else negInf)
      else fin (a / b)

/-- JS `Math.ceil`. -/
def ceil : JsNum → JsNum
  | fin q => fin (⌈q⌉ : ℚ)
  | x => x

/-- JS `<` on numbers (`false` whenever NaN is involved). -/
def ltb : JsNum → JsNum → Bool
  | nan, _ => false
  | _, nan => false
  | posInf, _ => false
  | negInf, posInf => true
  | negInf, negInf => false
  | negInf, fin _ => true
  | fin _, posInf => true
  | fin _, negInf => false
  | fin a, fin b => decide (a < b)

/-- JS `>` on numbers. -/
def gtb (a b : JsNum) : Bool := ltb b a

/-- JS unary minus. -/
def neg : JsNum → JsNum
  | nan => nan
  | posInf => negInf
  | negInf => posInf
  | fin q => fin (-q)

end JsNum

/-- The characters ECMAScript `StringToNumber` strips as whitespace
(the common subset: space, tab, LF, VT, FF, CR, NBSP, BOM). -/
def isJsSpace (c : Char) : Bool :=
  c == ' ' || c == '\t' || c == '\n' || c == '\r' ||
  c.toNat == 11 || c.toNat == 12 || c.toNat == 160 || c.toNat == 65279

/-- Strip JS whitespace from both ends of a character list. -/
def trimJs (cs : List Char) : List Char :=
  ((cs.dropWhile isJsSpace).reverse.dropWhile isJsSpace).reverse

/-- Value of a digit character in the given base, if it is one. -/
def digVal (base : ℕ) (c : Char) : Option ℕ :=
  let n := c.toNat
  let v : Option ℕ :=
    if 48 ≤ n ∧ n ≤ 57 then some (n - 48)
    else if 97 ≤ n ∧ n ≤ 102 then some (n - 87)
    else if 65 ≤ n ∧ n ≤ 70 then some (n - 55)
    else none
  match v with
  | some d => if d < base then some d else none
  | none => none

/-- Consume leading digits in the given base; returns the value read, how many
digits were consumed and the remaining characters. -/
def takeDigits (base : ℕ) : List Char → ℕ → ℕ → (ℕ × ℕ × List Char)
  | [], acc, cnt => (acc, cnt, [])
  | c :: cs, acc, cnt =>
    match digVal base c with
    | some d => takeDigits base cs (acc * base + d) (cnt + 1)
    | none => (acc, cnt, c :: cs)

/-- Exponent digits: the whole rest of the string must be digits. -/
def expDigits (cs : List Char) : Option ℤ :=
  let (v, cnt, rest) := takeDigits 10 cs 0 0
  if cnt = 0 ∨ rest ≠ [] then none else some (v : ℤ)

/-- Optional exponent part (`e`/`E`, optional sign, digits) ending the string. -/
def parseExpPart : List Char → Option ℤ
  | [] => some 0
  | c :: cs =>
    if c == 'e' || c == 'E' then
      match cs with
      | '+' :: cs2 => expDigits cs2
      | '-' :: cs2 => (expDigits cs2).map Neg.neg
      | cs2 => expDigits cs2
    else none

/-- Unsigned ECMAScript decimal literal (digits, optional fraction, optional
exponent), required to consume the whole string. -/
def parseUnsignedDec (cs : List Char) : Option ℚ :=
  let (ip, icnt, rest) := takeDigits 10 cs 0 0
  match rest with
  | '.' :: rest2 =>
      let (fp, fcnt, rest3) := takeDigits 10 rest2 0 0
      if icnt = 0 ∧ fcnt = 0 then none
      else (parseExpPart rest3).map
        (fun e => ((ip : ℚ) + (fp : ℚ) / (10 ^ fcnt : ℚ)) * (10 : ℚ) ^ e)
  | _ =>
      if icnt = 0 then none
      else (parseExpPart rest).map (fun e => (ip : ℚ) * (10 : ℚ) ^ e)

/-- A non-decimal (`0x`/`0o`/`0b`) literal body. -/
def radixLit (base : ℕ) (cs : List Char) : JsNum :=
  let (v, cnt, rest) := takeDigits base cs 0 0
  if cnt = 0 ∨ rest ≠ [] then JsNum.nan else JsNum.fin v

/-- The part after an optional sign: `Infinity` or an unsigned decimal. -/
def signedPart (cs : List Char) : JsNum :=
  if cs = ['I', 'n', 'f', 'i', 'n', 'i', 't', 'y'] then JsNum.posInf
  else match parseUnsignedDec cs with
    | some q => JsNum.fin q
    | none => JsNum.nan

/-- Signed decimal / Infinity literal. -/
def signedLit (cs : List Char) : JsNum :=
  match cs with
  | '+' :: rest => signedPart rest
  | '-' :: rest => (signedPart rest).neg
  | _ => signedPart cs

/-- ECMAScript `Number(string)` conversion (`StringToNumber`): trim
whitespace, empty string is `0`, otherwise a numeric literal (signed decimal
with optional fraction/exponent, signed `Infinity`, or unsigned `0x`/`0o`/`0b`
literal); anything else is NaN. -/
def jsStringToNumber (s : String) : JsNum :=
  let t := trimJs s.toList
  match t with
  | [] => JsNum.fin 0
  | '0' :: x :: rest =>
      if x == 'x' || x == 'X' then radixLit 16 rest
      else if x == 'o' || x == 'O' then radixLit 8 rest
      else if x == 'b' || x == 'B' then radixLit 2 rest
      else signedLit t
  | _ => signedLit t

/-- A JS `Date` value: `some t` is a valid timestamp of `t` milliseconds since
the Unix epoch, `none` is an Invalid Date (NaN time value). -/
abbrev JsDate := Option ℤ

/-- Leap year test (proleptic Gregorian, as used by ECMAScript dates). -/
def isLeap (y : ℤ) : Bool :=
  y % 4 == 0 && (y % 100 != 0 || y % 400 == 0)

/-- Number of days in the given month of the given year. -/
def daysInMonth (y : ℤ) (m : ℕ) : ℕ :=
  if m = 2 then (if isLeap y then 29 else 28)
  else if m = 4 ∨ m = 6 ∨ m = 9 ∨ m = 11 then 30
  else 31

/-- Days from the Unix epoch to the civil date `y-m-d` (the standard
days-from-civil computation). -/
def daysFromCivil (y : ℤ) (m d : ℤ) : ℤ :=
  let y2 := y - (if m ≤ 2 then 1 else 0)
  let era := (if 0 ≤ y2 then y2 else y2 - 399) / 400
  let yoe := y2 - era * 400
  let doy := (153 * (m + (if 2 < m then -3 else 9)) + 2) / 5 + d - 1
  let doe := yoe * 365 + yoe / 4 - yoe / 100 + doy
  era * 146097 + doe - 719468

/-- Decimal digit value of a character, if it is `0`-`9`. -/
def decDig (c : Char) : Option ℕ :=
  if 48 ≤ c.toNat ∧ c.toNat ≤ 57 then some (c.toNat - 48) else none

/-- `new Date(string)` for the date-only ECMAScript format `YYYY-MM-DD`
(midnight UTC); every other string is modelled as an Invalid Date. This is a
fragment of the full ECMAScript date parsing: the library's date filters use
the parsed time value only as an opaque bound, and the repository exercises
date-only strings. -/
def parseJsDate (s : String) : JsDate :=
  match s.toList with
  | [y1, y2, y3, y4, '-', m1, m2, '-', d1, d2] =>
    match decDig y1, decDig y2, decDig y3, decDig y4,
          decDig m1, decDig m2, decDig d1, decDig d2 with
    | some a, some b, some c, some d, some e, some f, some g, some h =>
      let y : ℤ := ((a * 10 + b) * 10 + c) * 10 + d
      let mo : ℕ := e * 10 + f
      let dy : ℕ := g * 10 + h
      if 1 ≤ mo ∧ mo ≤ 12 ∧ 1 ≤ dy ∧ dy ≤ daysInMonth y mo then
        some (86400000 * daysFromCivil y (mo : ℤ) (dy : ℤ))
      else none
    | _, _, _, _, _, _, _, _ => none
  | _ => none

/-- The `createdAt` range object built by the date filter: any subset of the
`$gte`/`$lte`/`$gt`/`$lt` comparison operators, each holding a JS date. -/
structure DateRange where
  gte : Option JsDate := none
  lte : Option JsDate := none
  gt : Option JsDate := none
  lt : Option JsDate := none
deriving DecidableEq, Repr

/-- A value stored at a key of a MongoDB filter object, covering the shapes
this library produces: boolean equality, numeric equality, a
`\x7b $regex: pattern, $options: options \x7d` object, a `createdAt` date
range object, a `$or` array of single-field case-insensitive regex objects
(each pair `(field, pattern)` stands for
`\x7b field: \x7b $regex: pattern, $options: "i" \x7d \x7d`), or an opaque
value coming from the caller's base filter. -/
inductive FilterVal where
  | vBool (b : Bool)
  | vNum (n : JsNum)
  | vRegex (pattern : String) (options : String)
  | vDate (r : DateRange)
  | vOr (conds : List (String × String))
  | vExt (tag : ℕ)
deriving DecidableEq, Repr

/-- A JS object used as a MongoDB filter: an association list of keys to
values, keys unique for objects the program builds. -/
abbrev FilterObj := List (String × FilterVal)

/-- JS object spread `\x7b ...a, ...b \x7d`: keys of both, the right operand
winning on key collision (lookup semantics; key enumeration order is not
relevant to filter meaning). -/
def mergeObj (a b : FilterObj) : FilterObj :=
  a.filter (fun p => !(b.any (fun q => q.1 == p.1))) ++ b

/-- JS property assignment `obj[k] = v`: replace the value at an existing
key, else append the new key. -/
def objSet (obj : FilterObj) (k : String) (v : FilterVal) : FilterObj :=
  if obj.any (fun p => p.1 == k) then
    obj.map (fun p => if p.1 == k then (k, v) else p)
  else obj ++ [(k, v)]

/-- JS truthiness of an optional string: present and non-empty. -/
def truthyStr : Option String → Bool
  | none => false
  | some s => s ≠ ""

/-- `createDateFilter(startDate?, endDate?, searchBetweenDates = false)`:
builds the `createdAt` range condition. Translated line by line from the
source: returns the empty object when both date strings are falsy; otherwise
parses the truthy ones, uses `$gt`/`$lt` when `searchBetweenDates` and
`$gte`/`$lte` otherwise, and in the inclusive case shifts the end date by
24 hours. -/
def createDateFilter (startDate endDate : Option String)
    (searchBetweenDates : Bool := false) : FilterObj :=
  if !(truthyStr startDate) && !(truthyStr endDate) then []
  else
    let start : Option JsDate :=
      if truthyStr startDate then some (parseJsDate (startDate.getD "")) else none
    let stop : Option JsDate :=
      if truthyStr endDate then some (parseJsDate (endDate.getD "")) else none
    let r1 : DateRange :=
      match stop with
      | some e =>
        if searchBetweenDates then { lt := some e }
        else { lte := some (e.map (· + 24 * 60 * 60 * 1000)) }
      | none => {}
    let r2 : DateRange :=
      match start with
      | some s =>
        if searchBetweenDates then { r1 with gt := some s }
        else { r1 with gte := some s }
      | none => r1
    [("createdAt", FilterVal.vDate r2)]

/-- `processFilters(filters?)`: non-global mode. For each entry, skip
`undefined` values; map the literal strings `"true"`/`"false"` to boolean
equality; else a value that `Number()` converts without NaN to numeric
equality; else a case-insensitive `$regex` condition. Entries are written
into the result object with JS assignment semantics. -/
def processFilters (filters : Option (List (String × Option String))) :
    FilterObj :=
  match filters with
  | none => []
  | some fs =>
    fs.foldl (fun query kv =>
      match kv.2 with
      | none => query
      | some value =>
        if value = "true" ∨ value = "false" then
          objSet query kv.1 (FilterVal.vBool (value = "true"))
        else if jsStringToNumber value ≠ JsNum.nan then
          objSet query kv.1 (FilterVal.vNum (jsStringToNumber value))
        else
          objSet query kv.1 (FilterVal.vRegex value "i")) []

/-- `createGlobalSearchQuery(filters?)`: keep the entries whose value is a
truthy (non-empty) string, turn each into a single-field case-insensitive
regex condition, and combine them under `$or`; the empty object when no entry
qualifies. -/
def createGlobalSearchQuery
    (filters : Option (List (String × Option String))) : FilterObj :=
  match filters with
  | none => []
  | some fs =>
    let globalConditions :=
      (fs.filter (fun kv => truthyStr kv.2)).map
        (fun kv => (kv.1, kv.2.getD ""))
    if globalConditions.length ≠ 0 then [("$or", FilterVal.vOr globalConditions)]
    else []

/-- A stage of the `$facet` sub-pipelines the orchestrator emits:
`$count`, `$sort` (field and direction), `$skip`, `$limit`, `$project`. -/
inductive SubStage where
  | scount (field : String)
  | ssort (field : String) (dir : ℤ)
  | sskip (n : JsNum)
  | slimit (n : JsNum)
  | sproject (spec : List (String × Bool))
deriving DecidableEq, Repr

/-- A top-level aggregation pipeline stage: `$match`, `$facet` with the two
named sub-pipelines `metadata` and `data`, `$unwind`
(`\x7b path, preserveNullAndEmptyArrays \x7d`), or an opaque caller-supplied
stage identified by a tag. -/
inductive Stage where
  | smatch (f : FilterObj)
  | sfacet (metadata : List SubStage) (data : List SubStage)
  | sunwind (path : String) (preserveNullAndEmptyArrays : Bool)
  | sextra (tag : ℕ)
deriving DecidableEq, Repr

/-- `PaginationOptions`, with the default values the orchestrator's
destructuring supplies. The `Model` field of the source is the storage
collaborator and is passed to the orchestrator separately as the engine
function. -/
structure PaginationOptions where
  filter : FilterObj := []
  max : JsNum := .fin 10
  page : JsNum := .fin 1
  sort : Bool := true
  pipeline : List Stage := []
  extract : List (String × Bool) := []
  startDate : Option String := none
  endDate : Option String := none
  searchBetweenDates : Bool := false
  filters : Option (List (String × Option String)) := none
  globalSearch : Bool := false
deriving Repr

/-- `const skip = (page - 1) * max` in JS arithmetic. -/
def computedSkip (o : PaginationOptions) : JsNum :=
  (o.page.sub (.fin 1)).mul o.max

/-- The combined filter
`\x7b ...filter, ...createDateFilter(...), ...(globalSearch ? createGlobalSearchQuery(filters) : processFilters(filters)) \x7d`. -/
def combinedFilter (o : PaginationOptions) : FilterObj :=
  mergeObj
    (mergeObj o.filter
      (createDateFilter o.startDate o.endDate o.searchBetweenDates))
    (if o.globalSearch then createGlobalSearchQuery o.filters
     else processFilters o.filters)

/-- The aggregation pipeline the orchestrator sends to the engine: match,
the caller's stages verbatim, the facet (count sub-pipeline and the
sort?/skip/limit/project? data sub-pipeline), and the unwind of the
`metadata` facet output with `preserveNullAndEmptyArrays: true`. -/
def aggregationPipeline (o : PaginationOptions) : List Stage :=
  [Stage.smatch (combinedFilter o)] ++ o.pipeline ++
  [Stage.sfacet [SubStage.scount "total"]
    ((if o.sort then [SubStage.ssort "createdAt" (-1)] else []) ++
     [SubStage.sskip (computedSkip o), SubStage.slimit o.max] ++
     (if 0 < o.extract.length then [SubStage.sproject o.extract] else [])),
   Stage.sunwind "$metadata" true]

/-- One document of the engine's reply, after the unwind: the TS code reads
it at type `\x7b metadata?: \x7b total: number \x7d; data: T[] \x7d` through
optional chaining, so both the `metadata` object and its `total` property may
be absent. -/
structure AggRes (T : Type) where
  metadata : Option (Option ℕ) := none
  data : List T := []
deriving DecidableEq, Repr

/-- The page metadata of a `PaginationResult`. -/
structure PageMetadata where
  total : ℕ
  page : JsNum
  max : JsNum
  next : Bool
  previous : Bool
  totalPages : JsNum
deriving DecidableEq, Repr

/-- The result envelope `\x7b metadata, data \x7d`. -/
structure PaginationResult (T : Type) where
  metadata : PageMetadata
  data : List T
deriving DecidableEq, Repr

/-- `result?.metadata?.total ?? 0`: the total with the optional chaining the
orchestrator uses on the first reply document. -/
def resultTotal {T : Type} : Option (AggRes T) → ℕ
  | some r =>
    match r.metadata with
    | some (some t) => t
    | _ => 0
  | none => 0

/-- `result?.data ?? []`. -/
def resultData {T : Type} : Option (AggRes T) → List T
  | some r => r.data
  | none => []

/-- `mongoosePagination(options)`: computes `skip`, builds the combined
filter and the aggregation pipeline, performs the single storage call
(`engine`, standing for `Model.aggregate`), destructures the first reply
document, and assembles the result envelope:
`total = result?.metadata?.total ?? 0`, `next = total > skip + max`,
`previous = page > 1`, `totalPages = Math.ceil(total / max)`,
`data = result?.data ?? []`. -/
def mongoosePagination {T : Type} (engine : List Stage → List (AggRes T))
    (options : PaginationOptions) : PaginationResult T :=
  { metadata :=
    { total := resultTotal ((engine (aggregationPipeline options)).head?)
      page := options.page
      max := options.max
      next := JsNum.gtb
        (.fin (resultTotal ((engine (aggregationPipeline options)).head?)))
        ((computedSkip options).add options.max)
      previous := JsNum.gtb options.page (.fin 1)
      totalPages :=
        ((JsNum.fin (resultTotal ((engine (aggregationPipeline options)).head?))).div
          options.max).ceil }
    data := resultData ((engine (aggregationPipeline options)).head?) }

/-- A stored document, as far as the engine model needs it: a creation
timestamp (for `$sort`) and opaque named fields (for `$project`). -/
structure Doc where
  createdAt : ℤ := 0
  fields : List (String × String) := []
deriving DecidableEq, Repr

/-- A document flowing through a facet sub-pipeline: either a collection
document or the `\x7b field: n \x7d` document `$count` emits. -/
inductive SubDoc where
  | doc (d : Doc)
  | cnt (field : String) (n : ℕ)
deriving DecidableEq, Repr

/-- Sort key of a sub-pipeline document (count documents carry no
`createdAt`; the program never sorts them). -/
def subKey : SubDoc → ℤ
  | .doc d => d.createdAt
  | .cnt _ _ => 0

/-- Insert into a list kept in descending `createdAt` order. -/
def insertDesc (d : SubDoc) : List SubDoc → List SubDoc
  | [] => [d]
  | e :: es => if subKey d ≥ subKey e then d :: e :: es else e :: insertDesc d es

/-- Sort descending by `createdAt` (insertion sort; a valid instance of the
engine's `$sort`). -/
def sortDesc : List SubDoc → List SubDoc
  | [] => []
  | d :: ds => insertDesc d (sortDesc ds)

/-- The value of a `$skip`/`$limit` argument as a count. The engine model is
defined on the non-negative integer arguments the program produces for valid
requests. -/
def jsNumToNat : JsNum → ℕ
  | .fin q => if q.den = 1 then q.num.toNat else 0
  | _ => 0

/-- `$project` keeping the listed fields (inclusion projection). -/
def projectDoc (spec : List (String × Bool)) (d : Doc) : Doc :=
  { d with fields := d.fields.filter (fun p => spec.any (fun s => s.1 == p.1 && s.2)) }

/-- One facet sub-pipeline stage of the engine model. `$count` emits one
count document when its input is non-empty and nothing at all when it is
empty; `$sort` on `createdAt` descending sorts, other sorts are left
abstract as the identity; `$skip`/`$limit` drop/take; `$project` projects. -/
def applySub (l : List SubDoc) : SubStage → List SubDoc
  | .scount field => if l.length = 0 then [] else [SubDoc.cnt field l.length]
  | .ssort field dir =>
      if field == "createdAt" && dir == -1 then sortDesc l else l
  | .sskip n => l.drop (jsNumToNat n)
  | .slimit n => l.take (jsNumToNat n)
  | .sproject spec =>
      l.map (fun e =>
        match e with
        | .doc d => .doc (projectDoc spec d)
        | c => c)

/-- Run a facet sub-pipeline over the matched documents. -/
def runSub (sub : List SubStage) (l : List Doc) : List SubDoc :=
  sub.foldl applySub (l.map SubDoc.doc)

/-- The single document a `$facet` stage emits: each named sub-pipeline's
output as an array. -/
structure FacetDoc where
  metadata : List SubDoc
  data : List SubDoc
deriving DecidableEq, Repr

/-- The `total` property of a sub-pipeline document, if it has one. -/
def subTotal : SubDoc → Option ℕ
  | .cnt "total" n => some n
  | _ => none

/-- The collection documents of a sub-pipeline output. -/
def subDocs (l : List SubDoc) : List Doc :=
  l.filterMap (fun e =>
    match e with
    | .doc d => some d
    | _ => none)

/-- `$unwind` of the `metadata` array with `preserveNullAndEmptyArrays`:
an empty array keeps the document without the field when preserving and
drops it otherwise; otherwise one output document per array element. -/
def unwindMeta (preserve : Bool) (f : FacetDoc) : List (AggRes Doc) :=
  match f.metadata with
  | [] =>
      if preserve then [{ metadata := none, data := subDocs f.data }] else []
  | ms => ms.map (fun m => { metadata := some (subTotal m), data := subDocs f.data })

/-- The stages after the `$facet`: the program's pipelines have exactly the
metadata unwind there; other post-facet shapes are outside the modelled
engine fragment and give no reply documents. -/
def runPostFacet (l : List FacetDoc) : List Stage → List (AggRes Doc)
  | [Stage.sunwind path p] =>
      if path = "$metadata" then (l.map (unwindMeta p)).flatten else []
  | _ => []

/-- Reference model of the aggregation engine (`Model.aggregate`), for a
collection `coll` of documents: `$match` filters by the match semantics
`msem` (left as a parameter — interpreting MongoDB's query operators is the
storage collaborator's business), opaque caller stages transform the
document stream through `esem`, `$facet` runs its two sub-pipelines, and the
remaining stages are handled by `runPostFacet`. -/
def refEngineAux (msem : FilterObj → Doc → Bool)
    (esem : ℕ → List Doc → List Doc) :
    List Doc → List Stage → List (AggRes Doc)
  | _, [] => []
  | l, Stage.smatch f :: rest => refEngineAux msem esem (l.filter (msem f)) rest
  | l, Stage.sextra t :: rest => refEngineAux msem esem (esem t l) rest
  | l, Stage.sfacet meta data :: rest =>
      runPostFacet [{ metadata := runSub meta l, data := runSub data l }] rest
  | l, Stage.sunwind _ _ :: rest => refEngineAux msem esem l rest

/-- The reference engine as a function from pipelines to replies. -/
def refEngine (msem : FilterObj → Doc → Bool)
    (esem : ℕ → List Doc → List Doc) (coll : List Doc)
    (stages : List Stage) : List (AggRes Doc) :=
  refEngineAux msem esem coll stages

/-- The per-value coercion `processFilters` applies, factored out of its
fold for the statements below. -/
def coerceValue (value : String) : FilterVal :=
  if value = "true" ∨ value = "false" then FilterVal.vBool (value = "true")
  else if jsStringToNumber value ≠ JsNum.nan then
    FilterVal.vNum (jsStringToNumber value)
  else FilterVal.vRegex value "i"

/-- The Date-Range Filter Builder contract as the specification words it:
no condition when neither date is supplied; only an upper bound
(strict `$lt` at the parsed end date when exclusive, `$lte` at the parsed
end date plus 24 hours when inclusive) when only the end date is supplied;
only a lower bound (`$gt` exclusive, `$gte` inclusive, at the parsed start
date) when only the start date is supplied; both bounds conjoined on the
same `createdAt` field when both are supplied. -/
def dateFilterSpec (startDate endDate : Option String)
    (exclusive : Bool) : FilterObj :=
  if ¬ truthyStr startDate ∧ ¬ truthyStr endDate then []
  else if truthyStr endDate ∧ ¬ truthyStr startDate then
    [("createdAt", FilterVal.vDate
      (if exclusive then { lt := some (parseJsDate (endDate.getD "")) }
       else { lte := some ((parseJsDate (endDate.getD "")).map
                (· + 24 * 60 * 60 * 1000)) }))]
  else if truthyStr startDate ∧ ¬ truthyStr endDate then
    [("createdAt", FilterVal.vDate
      (if exclusive then { gt := some (parseJsDate (startDate.getD "")) }
       else { gte := some (parseJsDate (startDate.getD "")) }))]
  else
    [("createdAt", FilterVal.vDate
      (if exclusive then
        { gt := some (parseJsDate (startDate.getD ""))
          lt := some (parseJsDate (endDate.getD "")) }
       else
        { gte := some (parseJsDate (startDate.getD ""))
          lte := some ((parseJsDate (endDate.getD "")).map
                (· + 24 * 60 * 60 * 1000)) }))]

/-! ## Concrete instances used by the witness theorems -/

/-- A three-document sample collection. -/
def sampleColl : List Doc :=
  [{ createdAt := 1 }, { createdAt := 3 }, { createdAt := 2 }]

/-- The reference engine over the sample collection with a match semantics
accepting every document. -/
def allEngine : List Stage → List (AggRes Doc) :=
  refEngine (fun _ _ => true) (fun _ l => l) sampleColl

/-- An engine reply carrying a count of 7 and no records. -/
def engSeven : List Stage → List (AggRes Unit) :=
  fun _ => [{ metadata := some (some 7), data := [] }]

/-- Options asking for page 2 with 3 records per page. -/
def optsTwoThree : PaginationOptions := { page := .fin 2, max := .fin 3 }

/-! ## Helper lemmas on association-list lookup and the object merge -/

theorem lookup_cons_self (k : String) (v : FilterVal) (t : FilterObj) :
    List.lookup k ((k, v) :: t) = some v := by
  rw [List.lookup_cons]
  simp

theorem lookup_cons_ne (k x : String) (h : k ≠ x) (v : FilterVal)
    (t : FilterObj) : List.lookup k ((x, v) :: t) = List.lookup k t := by
  rw [List.lookup_cons]
  simp [beq_false_of_ne h]

theorem lookup_append (k : String) (a b : FilterObj) :
    List.lookup k (a ++ b) =
      (List.lookup k a).orElse (fun _ => List.lookup k b) := by
  induction a with
  | nil => simp [Option.orElse]
  | cons p t ih =>
    obtain ⟨x, v⟩ := p
    by_cases h : k = x
    · subst h
      simp [lookup_cons_self, Option.orElse]
    · rw [List.cons_append, lookup_cons_ne k x h, lookup_cons_ne k x h]
      exact ih

theorem lookup_eq_none_of_not_any (k : String) (b : FilterObj)
    (h : b.any (fun q => q.1 == k) = false) : List.lookup k b = none := by
  induction b with
  | nil => rfl
  | cons p t ih =>
    obtain ⟨x, v⟩ := p
    simp only [List.any_cons, Bool.or_eq_false_iff] at h
    have hx : ¬ (k = x) := by
      intro hkx
      subst hkx
      simp at h
    rw [lookup_cons_ne k x hx]
    exact ih h.2

theorem lookup_isSome_of_any (k : String) (b : FilterObj)
    (h : b.any (fun q => q.1 == k) = true) : (List.lookup k b).isSome := by
  induction b with
  | nil => simp at h
  | cons p t ih =>
    obtain ⟨x, v⟩ := p
    by_cases hkx : k = x
    · subst hkx
      simp [lookup_cons_self]
    · simp only [List.any_cons, Bool.or_eq_true] at h
      rcases h with h | h
      · exact absurd (eq_of_beq h).symm hkx
      · rw [lookup_cons_ne k x hkx]
        exact ih h

theorem lookup_filter_eq_none (k : String) (a b : FilterObj)
    (hb : b.any (fun q => q.1 == k) = true) :
    List.lookup k (a.filter (fun p => !(b.any (fun q => q.1 == p.1)))) = none := by
  induction a with
  | nil => rfl
  | cons p t ih =>
    obtain ⟨x, v⟩ := p
    by_cases hkept : (b.any (fun q => q.1 == (x, v).1)) = false
    · rw [List.filter_cons_of_pos (by simp [hkept])]
      have hx : ¬ (k = x) := by
        intro hkx
        subst hkx
        simp only at hkept
        rw [hkept] at hb
        exact Bool.false_ne_true hb
      rw [lookup_cons_ne k x hx]
      exact ih
    · rw [List.filter_cons_of_neg (by simpa using hkept)]
      exact ih

theorem lookup_filter_eq_self (k : String) (a b : FilterObj)
    (hb : b.any (fun q => q.1 == k) = false) :
    List.lookup k (a.filter (fun p => !(b.any (fun q => q.1 == p.1)))) =
      List.lookup k a := by
  induction a with
  | nil => rfl
  | cons p t ih =>
    obtain ⟨x, v⟩ := p
    by_cases hkx : k = x
    · subst hkx
      rw [List.filter_cons_of_pos (by simp only at hb ⊢; simp [hb])]
      rw [lookup_cons_self, lookup_cons_self]
    · by_cases hkept : (b.any (fun q => q.1 == (x, v).1)) = false
      · rw [List.filter_cons_of_pos (by simp [hkept])]
        rw [lookup_cons_ne k x hkx, lookup_cons_ne k x hkx]
        exact ih
      · rw [List.filter_cons_of_neg (by simpa using hkept)]
        rw [ih, lookup_cons_ne k x hkx]

theorem lookup_mergeObj (k : String) (a b : FilterObj) :
    List.lookup k (mergeObj a b) =
      (List.lookup k b).orElse (fun _ => List.lookup k a) := by
  unfold mergeObj
  rw [lookup_append]
  cases hb : b.any (fun q => q.1 == k) with
  | true =>
    rw [lookup_filter_eq_none k a b hb]
    obtain ⟨v, hv⟩ := Option.isSome_iff_exists.mp (lookup_isSome_of_any k b hb)
    simp [hv, Option.orElse]
  | false =>
    rw [lookup_filter_eq_self k a b hb, lookup_eq_none_of_not_any k b hb]
    cases List.lookup k a <;> simp [Option.orElse]

/-! ## Helper lemmas on the field-filter fold -/

theorem objSet_of_not_any (obj : FilterObj) (k : String) (v : FilterVal)
    (h : obj.any (fun p => p.1 == k) = false) :
    objSet obj k v = obj ++ [(k, v)] := by
  unfold objSet
  rw [h]
  simp

theorem step_eq_objSet (q : FilterObj) (k : String) (v : String) :
    (if v = "true" ∨ v = "false" then
      objSet q k (FilterVal.vBool (v = "true"))
    else if jsStringToNumber v ≠ JsNum.nan then
      objSet q k (FilterVal.vNum (jsStringToNumber v))
    else objSet q k (FilterVal.vRegex v "i")) =
      objSet q k (coerceValue v) := by
  unfold coerceValue
  by_cases h1 : v = "true" ∨ v = "false" <;>
    by_cases h2 : jsStringToNumber v ≠ JsNum.nan <;>
      simp [h1, h2]

theorem processFilters_foldl (fs : List (String × Option String))
    (acc : FilterObj)
    (hfresh : ∀ kv ∈ fs, acc.any (fun p => p.1 == kv.1) = false)
    (hnd : (fs.map Prod.fst).Nodup) :
    fs.foldl (fun query kv =>
      match kv.2 with
      | none => query
      | some value =>
        if value = "true" ∨ value = "false" then
          objSet query kv.1 (FilterVal.vBool (value = "true"))
        else if jsStringToNumber value ≠ JsNum.nan then
          objSet query kv.1 (FilterVal.vNum (jsStringToNumber value))
        else
          objSet query kv.1 (FilterVal.vRegex value "i")) acc =
      acc ++ fs.filterMap (fun kv => kv.2.map (fun v => (kv.1, coerceValue v))) := by
  induction fs generalizing acc with
  | nil => simp
  | cons kv rest ih =>
    obtain ⟨k, w⟩ := kv
    rw [List.map_cons, List.nodup_cons] at hnd
    cases w with
    | none =>
      rw [List.foldl_cons, List.filterMap_cons]
      exact ih acc (fun kv h => hfresh kv (List.mem_cons_of_mem _ h)) hnd.2
    | some v =>
      rw [List.foldl_cons]
      have hstep := step_eq_objSet acc k v
      simp only at hstep ⊢
      rw [hstep, objSet_of_not_any acc k _ (hfresh (k, some v) (List.mem_cons_self _ _))]
      rw [ih (acc ++ [(k, coerceValue v)]) ?_ hnd.2]
      · rw [List.filterMap_cons]
        simp [List.append_assoc]
      · intro kv hkv
        rw [List.any_append]
        rw [hfresh kv (List.mem_cons_of_mem _ hkv)]
        have hk : k ≠ kv.1 := by
          intro he
          exact hnd.1 (he ▸ List.mem_map.mpr ⟨kv, hkv, rfl⟩)
        simp [beq_false_of_ne hk]

theorem processFilters_eq_filterMap (fs : List (String × Option String))
    (hnd : (fs.map Prod.fst).Nodup) :
    processFilters (some fs) =
      fs.filterMap (fun kv => kv.2.map (fun v => (kv.1, coerceValue v))) := by
  unfold processFilters
  simpa using processFilters_foldl fs [] (fun kv _ => rfl) hnd

theorem lookup_filterMap_not_mem (fs : List (String × Option String))
    (k : String) (h : k ∉ fs.map Prod.fst) :
    List.lookup k (fs.filterMap
      (fun kv => kv.2.map (fun v => (kv.1, coerceValue v)))) = none := by
  induction fs with
  | nil => rfl
  | cons kv rest ih =>
    obtain ⟨x, w⟩ := kv
    rw [List.map_cons, List.mem_cons] at h
    push_neg at h
    cases w with
    | none => simpa using ih h.2
    | some v =>
      rw [List.filterMap_cons]
      simp only [Option.map_some']
      rw [lookup_cons_ne k x h.1]
      exact ih h.2

theorem lookup_filterMap_mem (fs : List (String × Option String))
    (k : String) (v : String) (hnd : (fs.map Prod.fst).Nodup)
    (hmem : (k, some v) ∈ fs) :
    List.lookup k (fs.filterMap
      (fun kv => kv.2.map (fun v => (kv.1, coerceValue v)))) =
      some (coerceValue v) := by
  induction fs with
  | nil => cases hmem
  | cons kv rest ih =>
    obtain ⟨x, w⟩ := kv
    rw [List.map_cons, List.nodup_cons] at hnd
    rcases List.mem_cons.mp hmem with heq | hrest
    · obtain ⟨rfl, rfl⟩ := Prod.mk.injEq .. ▸ heq
      rw [List.filterMap_cons]
      simp only [Option.map_some']
      exact lookup_cons_self k _ _
    · have hkx : k ≠ x := by
        intro he
        subst he
        exact hnd.1 (List.mem_map.mpr ⟨_, hrest, rfl⟩)
      cases w with
      | none => simpa using ih hnd.2 hrest
      | some w2 =>
        rw [List.filterMap_cons]
        simp only [Option.map_some']
        rw [lookup_cons_ne k x hkx]
        exact ih hnd.2 hrest

theorem lookup_filterMap_undef (fs : List (String × Option String))
    (k : String) (hnd : (fs.map Prod.fst).Nodup) (hmem : (k, none) ∈ fs) :
    List.lookup k (fs.filterMap
      (fun kv => kv.2.map (fun v => (kv.1, coerceValue v)))) = none := by
  induction fs with
  | nil => cases hmem
  | cons kv rest ih =>
    obtain ⟨x, w⟩ := kv
    rw [List.map_cons, List.nodup_cons] at hnd
    rcases List.mem_cons.mp hmem with heq | hrest
    · obtain ⟨rfl, rfl⟩ := Prod.mk.injEq .. ▸ heq
      simpa using lookup_filterMap_not_mem rest k hnd.1
    · have hkx : k ≠ x := by
        intro he
        subst he
        exact hnd.1 (List.mem_map.mpr ⟨_, hrest, rfl⟩)
      cases w with
      | none => simpa using ih hnd.2 hrest
      | some w2 =>
        rw [List.filterMap_cons]
        simp only [Option.map_some']
        rw [lookup_cons_ne k x hkx]
        exact ih hnd.2 hrest

/-! ## Helper lemmas on whitespace-only strings -/

theorem dropWhile_eq_nil_of_all (p : Char → Bool) (l : List Char)
    (h : l.all p = true) : l.dropWhile p = [] := by
  induction l with
  | nil => rfl
  | cons c t ih =>
    rw [List.all_cons, Bool.and_eq_true] at h
    rw [List.dropWhile_cons_of_pos h.1]
    exact ih h.2

theorem trimJs_eq_nil_of_all (l : List Char) (h : l.all isJsSpace = true) :
    trimJs l = [] := by
  unfold trimJs
  rw [dropWhile_eq_nil_of_all _ _ h]
  rfl

theorem jsStringToNumber_of_space (v : String)
    (h : v.toList.all isJsSpace = true) :
    jsStringToNumber v = JsNum.fin 0 := by
  unfold jsStringToNumber
  rw [trimJs_eq_nil_of_all _ h]

theorem coerceValue_of_space (v : String)
    (h : v.toList.all isJsSpace = true) :
    coerceValue v = FilterVal.vNum (JsNum.fin 0) := by
  have hv : jsStringToNumber v = JsNum.fin 0 := jsStringToNumber_of_space v h
  have h1 : v ≠ "true" := by
    rintro rfl
    exact absurd h (by decide)
  have h2 : v ≠ "false" := by
    rintro rfl
    exact absurd h (by decide)
  simp [coerceValue, h1, h2, hv]

/-! ## Claim theorems -/

/-- C4: for every input to the Date-Range Filter Builder, the produced
condition is empty when neither date is supplied; with only an end date it
is a strict upper bound at the parsed end date in exclusive mode and a
`$lte` bound at the parsed end date plus 24 hours in inclusive mode; with
only a start date it is a `$gt` (exclusive) or `$gte` (inclusive) lower
bound at the parsed start date; with both dates both bounds are conjoined
on the same `createdAt` field. -/
theorem createDateFilter_matches_spec (startDate endDate : Option String)
    (exclusive : Bool) :
    createDateFilter startDate endDate exclusive =
      dateFilterSpec startDate endDate exclusive := by
  unfold createDateFilter dateFilterSpec
  by_cases hs : truthyStr startDate = true <;>
    by_cases he : truthyStr endDate = true <;>
      cases exclusive <;>
        simp [hs, he, Bool.not_eq_true] at *

/-- C7: for every request, the aggregation pipeline is, in order: the
`$match` stage with the composed filter; the caller-supplied extra stages
verbatim; the `$facet` stage whose count sub-pipeline is exactly
`[$count "total"]` (so it contains no skip, limit or project stage) and
whose data sub-pipeline is the optional `$sort \x7b createdAt: -1 \x7d`
(only when `sort` is on), then `$skip`, then `$limit max`, then the
optional `$project` (only when the extraction set is non-empty); and then
the `$unwind` of the count sub-result. -/
theorem aggregationPipeline_order (o : PaginationOptions) :
    aggregationPipeline o =
      [Stage.smatch (combinedFilter o)] ++ o.pipeline ++
      [Stage.sfacet [SubStage.scount "total"]
        ((if o.sort then [SubStage.ssort "createdAt" (-1)] else []) ++
         [SubStage.sskip (computedSkip o), SubStage.slimit o.max] ++
         (if o.extract ≠ [] then [SubStage.sproject o.extract] else [])),
       Stage.sunwind "$metadata" true] := by
  unfold aggregationPipeline
  rcases o.extract with _ | ⟨p, t⟩ <;> simp

/-- C9: the composed filter is a last-wins key merge: looking up any key
finds the field-filter (or global-search) condition first, else the
date-range condition, else the caller's base filter value — so a field
filter named `createdAt` silently replaces the date-range condition, and
any field condition shadows the base filter at the same key. -/
theorem combinedFilter_last_wins (o : PaginationOptions) (k : String) :
    List.lookup k (combinedFilter o) =
      ((List.lookup k (if o.globalSearch then createGlobalSearchQuery o.filters
          else processFilters o.filters)).orElse
        (fun _ => List.lookup k
          (createDateFilter o.startDate o.endDate o.searchBetweenDates))).orElse
      (fun _ => List.lookup k o.filter) := by
  unfold combinedFilter
  rw [lookup_mergeObj, lookup_mergeObj]
  cases List.lookup k (if o.globalSearch then createGlobalSearchQuery o.filters
      else processFilters o.filters) <;>
    cases List.lookup k
        (createDateFilter o.startDate o.endDate o.searchBetweenDates) <;>
      simp [Option.orElse]

/-- C5: in non-global mode, every defined field-filter entry is coerced
with this priority: the literal strings `"true"`/`"false"` give a boolean
equality condition; otherwise a value that fully parses to a number gives a
numeric equality condition; otherwise the value gives a case-insensitive
substring pattern condition on that field. -/
theorem processFilters_coercion_priority (fs : List (String × Option String))
    (k : String) (v : String) (hnd : (fs.map Prod.fst).Nodup)
    (hmem : (k, some v) ∈ fs) :
    List.lookup k (processFilters (some fs)) = some
      (if v = "true" ∨ v = "false" then FilterVal.vBool (v = "true")
       else if jsStringToNumber v ≠ JsNum.nan then
         FilterVal.vNum (jsStringToNumber v)
       else FilterVal.vRegex v "i") := by
  rw [processFilters_eq_filterMap fs hnd, lookup_filterMap_mem fs k v hnd hmem]
  rfl

/-- Witness for C5 on a concrete filter mapping: the boolean literal, the
numeric value and the fallback pattern each land in their branch. -/
theorem processFilters_coercion_priority_witness :
    ((([("a", some "true"), ("b", some "3.5"), ("c", some "Meeting")] :
        List (String × Option String)).map Prod.fst).Nodup ∧
      ("c", some "Meeting") ∈
        ([("a", some "true"), ("b", some "3.5"), ("c", some "Meeting")] :
          List (String × Option String))) ∧
    List.lookup "c" (processFilters (some
      [("a", some "true"), ("b", some "3.5"), ("c", some "Meeting")])) =
      some (FilterVal.vRegex "Meeting" "i") := by
  refine ⟨⟨by decide, by decide⟩, ?_⟩
  rw [processFilters_coercion_priority
    [("a", some "true"), ("b", some "3.5"), ("c", some "Meeting")]
    "c" "Meeting" (by decide) (by decide)]
  decide

/-- C10: in non-global mode a field-filter entry whose value is the empty
string or whitespace-only is coerced to the numeric equality condition
`field == 0` (because `Number("")` is `0`), while an entry whose value is
`undefined` produces no condition at all. -/
theorem processFilters_empty_string_and_undefined
    (fs : List (String × Option String)) (k k2 : String) (v : String)
    (hnd : (fs.map Prod.fst).Nodup) (hv : v.toList.all isJsSpace = true)
    (hmem : (k, some v) ∈ fs) (hmem2 : (k2, none) ∈ fs) :
    List.lookup k (processFilters (some fs)) =
      some (FilterVal.vNum (JsNum.fin 0)) ∧
    List.lookup k2 (processFilters (some fs)) = none := by
  constructor
  · rw [processFilters_eq_filterMap fs hnd, lookup_filterMap_mem fs k v hnd hmem,
      coerceValue_of_space v hv]
  · rw [processFilters_eq_filterMap fs hnd]
    exact lookup_filterMap_undef fs k2 hnd hmem2

/-- Witness for C10: an empty-string value, a whitespace value and an
undefined value in one concrete mapping. -/
theorem processFilters_empty_string_and_undefined_witness :
    ((([("e", some ""), ("u", none)] :
        List (String × Option String)).map Prod.fst).Nodup ∧
      "".toList.all isJsSpace = true ∧
      ("e", some "") ∈ ([("e", some ""), ("u", none)] :
        List (String × Option String)) ∧
      ("u", none) ∈ ([("e", some ""), ("u", none)] :
        List (String × Option String))) ∧
    List.lookup "e" (processFilters (some [("e", some ""), ("u", none)])) =
      some (FilterVal.vNum (JsNum.fin 0)) ∧
    List.lookup "u" (processFilters (some [("e", some ""), ("u", none)])) =
      none := by
  refine ⟨⟨by decide, by decide, by decide, by decide⟩, ?_⟩
  exact processFilters_empty_string_and_undefined
    [("e", some ""), ("u", none)] "e" "u" ""
    (by decide) (by decide) (by decide) (by decide)

/-- C6: when global search is requested, the builder produces a single
`$or` condition with one case-insensitive substring pattern per entry whose
value is a non-empty string, the empty (always-true) condition when no
entry qualifies, and the composed filter uses this output instead of the
non-global Field Filter Processor's output. -/
theorem globalSearch_or_and_replaces (fs : List (String × Option String))
    (o : PaginationOptions) (hg : o.globalSearch = true) :
    createGlobalSearchQuery (some fs) =
      (if fs.filter (fun kv => truthyStr kv.2) = [] then []
       else [("$or", FilterVal.vOr ((fs.filter (fun kv => truthyStr kv.2)).map
         (fun kv => (kv.1, kv.2.getD ""))))]) ∧
    createGlobalSearchQuery none = [] ∧
    combinedFilter o =
      mergeObj (mergeObj o.filter
        (createDateFilter o.startDate o.endDate o.searchBetweenDates))
        (createGlobalSearchQuery o.filters) := by
  refine ⟨?_, rfl, ?_⟩
  · unfold createGlobalSearchQuery
    by_cases h : fs.filter (fun kv => truthyStr kv.2) = []
    · simp [h]
    · simp only [List.length_map]
      rw [if_neg h, if_pos]
      simpa [List.length_eq_zero] using h
  · unfold combinedFilter
    rw [hg]
    simp

/-- Witness for C6 on a concrete mapping: the empty and undefined entries
are dropped, the non-empty one becomes the single `$or` pattern, and the
composed filter of a global-search request is exactly that condition. -/
theorem globalSearch_or_and_replaces_witness :
    ({ globalSearch := true,
       filters := some [("title", some "meeting"), ("d", some ""), ("u", none)] :
        PaginationOptions }.globalSearch = true) ∧
    createGlobalSearchQuery
      (some [("title", some "meeting"), ("d", some ""), ("u", none)]) =
      [("$or", FilterVal.vOr [("title", "meeting")])] ∧
    combinedFilter
      { globalSearch := true,
        filters := some [("title", some "meeting"), ("d", some ""), ("u", none)] } =
      [("$or", FilterVal.vOr [("title", "meeting")])] := by
  have h := globalSearch_or_and_replaces
    [("title", some "meeting"), ("d", some ""), ("u", none)]
    { globalSearch := true,
      filters := some [("title", some "meeting"), ("d", some ""), ("u", none)] }
    rfl
  refine ⟨rfl, ?_, ?_⟩
  · rw [h.1]
    decide
  · rw [h.2.2]
    decide

theorem mongoosePagination_totalPages {T : Type}
    (engine : List Stage → List (AggRes T)) (o : PaginationOptions)
    (m : ℕ) (hm : o.max = JsNum.fin m) (hm1 : 1 ≤ m) :
    (mongoosePagination engine o).metadata.totalPages =
      JsNum.fin ((⌈((mongoosePagination engine o).metadata.total : ℚ) /
        (m : ℚ)⌉ : ℤ) : ℚ) := by
  have hm0 : (m : ℚ) ≠ 0 := Nat.cast_ne_zero.mpr (by omega)
  simp only [mongoosePagination]
  rw [hm]
  simp only [JsNum.div, JsNum.ceil, if_neg hm0]

theorem mongoosePagination_totalPages_zero_iff {T : Type}
    (engine : List Stage → List (AggRes T)) (o : PaginationOptions)
    (m : ℕ) (hm : o.max = JsNum.fin m) (hm1 : 1 ≤ m) :
    ((mongoosePagination engine o).metadata.totalPages = JsNum.fin 0 ↔
      (mongoosePagination engine o).metadata.total = 0) := by
  have hm0 : (m : ℚ) ≠ 0 := Nat.cast_ne_zero.mpr (by omega)
  simp only [mongoosePagination]
  set t := resultTotal ((engine (aggregationPipeline o)).head?) with ht
  rw [hm]
  simp only [JsNum.div, JsNum.ceil, if_neg hm0]
  constructor
  · intro h
    have hc : (⌈(t : ℚ) / (m : ℚ)⌉ : ℚ) = 0 := by
      simpa using h
    by_contra hne
    have hpos : (0 : ℚ) < (t : ℚ) / (m : ℚ) := by
      apply div_pos
      · exact_mod_cast Nat.pos_of_ne_zero hne
      · exact_mod_cast Nat.pos_of_ne_zero (by omega)
    have h2 := Int.ceil_pos.mpr hpos
    rw [show ⌈(t : ℚ) / (m : ℚ)⌉ = 0 by exact_mod_cast hc] at h2
    exact lt_irrefl 0 h2
  · intro h
    rw [h]
    norm_num

theorem mongoosePagination_next {T : Type}
    (engine : List Stage → List (AggRes T)) (o : PaginationOptions)
    (p m : ℕ) (hp : o.page = JsNum.fin p) (hm : o.max = JsNum.fin m) :
    ((mongoosePagination engine o).metadata.next = true ↔
      (((mongoosePagination engine o).metadata.total : ℚ) >
        ((p : ℚ) - 1) * (m : ℚ) + (m : ℚ))) := by
  simp only [mongoosePagination]
  set t := resultTotal ((engine (aggregationPipeline o)).head?) with ht
  unfold computedSkip
  rw [hp, hm]
  simp only [JsNum.sub, JsNum.mul, JsNum.add, JsNum.gtb, JsNum.ltb]
  simp only [decide_eq_true_eq, gt_iff_lt]

theorem mongoosePagination_previous {T : Type}
    (engine : List Stage → List (AggRes T)) (o : PaginationOptions)
    (p : ℕ) (hp : o.page = JsNum.fin p) :
    ((mongoosePagination engine o).metadata.previous = true ↔ 1 < p) := by
  simp only [mongoosePagination]
  rw [hp]
  simp only [JsNum.gtb, JsNum.ltb]
  simp only [decide_eq_true_eq, Nat.one_lt_cast]

/-- C2: for every successful call (any engine reply, page and max valid
positive integers), the metadata satisfies
`totalPages = ceil(total / max)` with `totalPages = 0` iff `total = 0`,
`next` is true exactly when `total > skip + max` with
`skip = (page-1)*max`, and `previous` is true exactly when `page > 1` —
a function of the page number alone, independent of `total`, so page 1
always reports no previous page. -/
theorem metadata_formulas {T : Type} (engine : List Stage → List (AggRes T))
    (o : PaginationOptions) (p m : ℕ)
    (hp : o.page = JsNum.fin p) (hm : o.max = JsNum.fin m)
    (hp1 : 1 ≤ p) (hm1 : 1 ≤ m) :
    (mongoosePagination engine o).metadata.totalPages =
      JsNum.fin ((⌈((mongoosePagination engine o).metadata.total : ℚ) /
        (m : ℚ)⌉ : ℤ) : ℚ) ∧
    ((mongoosePagination engine o).metadata.totalPages = JsNum.fin 0 ↔
      (mongoosePagination engine o).metadata.total = 0) ∧
    ((mongoosePagination engine o).metadata.next = true ↔
      (((mongoosePagination engine o).metadata.total : ℚ) >
        ((p : ℚ) - 1) * (m : ℚ) + (m : ℚ))) ∧
    ((mongoosePagination engine o).metadata.previous = true ↔ 1 < p) :=
  ⟨mongoosePagination_totalPages engine o m hm hm1,
   mongoosePagination_totalPages_zero_iff engine o m hm hm1,
   mongoosePagination_next engine o p m hp hm,
   mongoosePagination_previous engine o p hp⟩

/-- Witness for C2: a count of 7 with page 2 and max 3 gives 3 total
pages, a next page and a previous page. -/
theorem metadata_formulas_witness :
    (optsTwoThree.page = JsNum.fin 2 ∧ optsTwoThree.max = JsNum.fin 3 ∧
      (1 : ℕ) ≤ 2 ∧ (1 : ℕ) ≤ 3) ∧
    (mongoosePagination engSeven optsTwoThree).metadata.totalPages =
      JsNum.fin 3 ∧
    (mongoosePagination engSeven optsTwoThree).metadata.next = true ∧
    (mongoosePagination engSeven optsTwoThree).metadata.previous = true := by
  have h := metadata_formulas engSeven optsTwoThree 2 3 rfl rfl
    (by decide) (by decide)
  have ht : (mongoosePagination engSeven optsTwoThree).metadata.total = 7 := rfl
  refine ⟨⟨rfl, rfl, by decide, by decide⟩, ?_, ?_, ?_⟩
  · rw [h.1, ht]
    have hc : ⌈((7 : ℕ) : ℚ) / ((3 : ℕ) : ℚ)⌉ = 3 := by
      rw [Int.ceil_eq_iff]
      norm_num
    rw [hc]
    norm_num
  · refine h.2.2.1.mpr ?_
    rw [ht]
    norm_num
  · exact h.2.2.2.mpr (by decide)

theorem jsNumToNat_natCast (m : ℕ) : jsNumToNat (JsNum.fin (m : ℚ)) = m := by
  simp only [jsNumToNat]
  rw [Rat.den_natCast, if_pos rfl, Rat.num_natCast, Int.toNat_natCast]

theorem runPostFacet_cons_cons (l : List FacetDoc) (a b : Stage)
    (t : List Stage) : runPostFacet l (a :: b :: t) = [] := by
  cases a <;> rfl

/-- The data facet sub-pipeline of the program, as `aggregationPipeline`
builds it. -/
def dataSubOf (o : PaginationOptions) : List SubStage :=
  (if o.sort then [SubStage.ssort "createdAt" (-1)] else []) ++
  [SubStage.sskip (computedSkip o), SubStage.slimit o.max] ++
  (if 0 < o.extract.length then [SubStage.sproject o.extract] else [])

theorem length_runSub_data (o : PaginationOptions) (m : ℕ)
    (hm : o.max = JsNum.fin (m : ℚ)) (l : List Doc) :
    (runSub (dataSubOf o) l).length ≤ m := by
  unfold dataSubOf runSub
  rw [hm]
  rw [List.foldl_append, List.foldl_append]
  have hmid : ∀ y : List SubDoc,
      (List.foldl applySub y
        [SubStage.sskip (computedSkip o),
         SubStage.slimit (JsNum.fin (m : ℚ))]).length ≤ m := by
    intro y
    simp only [List.foldl_cons, List.foldl_nil, applySub]
    rw [jsNumToNat_natCast]
    exact List.length_take_le _ _
  by_cases he : 0 < o.extract.length
  · rw [if_pos he]
    simp only [List.foldl_cons, List.foldl_nil, applySub]
    rw [List.length_map]
    exact hmid _
  · rw [if_neg he]
    simp only [List.foldl_nil]
    exact hmid _

theorem runPostFacet_not_single (l : List FacetDoc) (s : List Stage)
    (h : 2 ≤ s.length) : runPostFacet l s = [] := by
  match s with
  | [] => simp at h
  | [a] => simp at h
  | a :: b :: t => exact runPostFacet_cons_cons l a b t

theorem refEngineAux_data_shape (msem : FilterObj → Doc → Bool)
    (esem : ℕ → List Doc → List Doc) (meta dsub : List SubStage) :
    ∀ (stages : List Stage) (l : List Doc) (r : AggRes Doc),
    r ∈ refEngineAux msem esem l
      (stages ++ [Stage.sfacet meta dsub, Stage.sunwind "$metadata" true]) →
    ∃ l2 : List Doc, r.data = subDocs (runSub dsub l2) := by
  intro stages
  induction stages with
  | nil =>
    intro l r hr
    simp only [List.nil_append, refEngineAux, runPostFacet] at hr
    rw [if_pos trivial] at hr
    simp only [List.map_cons, List.map_nil, List.flatten] at hr
    unfold unwindMeta at hr
    refine ⟨l, ?_⟩
    rcases hmeta : runSub meta l with _ | ⟨ms, mrest⟩
    · rw [hmeta] at hr
      simp at hr
      rw [hr]
    · rw [hmeta] at hr
      simp only [List.append_nil] at hr
      obtain ⟨x, _, hx⟩ := List.mem_map.mp hr
      rw [← hx]
  | cons st rest ih =>
    intro l r hr
    cases st with
    | smatch f =>
      exact ih (l.filter (msem f)) r hr
    | sextra t =>
      exact ih (esem t l) r hr
    | sunwind path p =>
      exact ih l r hr
    | sfacet m2 d2 =>
      rw [List.cons_append] at hr
      simp only [refEngineAux] at hr
      rw [runPostFacet_not_single _ _ (by simp)] at hr
      cases hr

/-- C3: for every valid request (page and max positive integers), the
computed skip equals `(page - 1) * max`, and against the reference engine
(for any match semantics, any opaque extra-stage semantics and any
collection) the returned records list has length at most `max`. -/
theorem skip_formula_and_record_bound (msem : FilterObj → Doc → Bool)
    (esem : ℕ → List Doc → List Doc) (coll : List Doc)
    (o : PaginationOptions) (p m : ℕ)
    (hp : o.page = JsNum.fin p) (hm : o.max = JsNum.fin m)
    (hp1 : 1 ≤ p) (hm1 : 1 ≤ m) :
    computedSkip o = JsNum.fin (((p - 1) * m : ℕ) : ℚ) ∧
    (mongoosePagination (refEngine msem esem coll) o).data.length ≤ m := by
  constructor
  · unfold computedSkip
    rw [hp, hm]
    simp only [JsNum.sub, JsNum.mul]
    congr 1
    push_cast [hp1]
    ring
  · have hpl : aggregationPipeline o =
        (Stage.smatch (combinedFilter o) :: o.pipeline) ++
          [Stage.sfacet [SubStage.scount "total"] (dataSubOf o),
           Stage.sunwind "$metadata" true] := by
      unfold aggregationPipeline dataSubOf
      simp
    simp only [mongoosePagination]
    rcases hh : (refEngine msem esem coll (aggregationPipeline o)).head? with
      _ | ⟨r⟩
    · simp [resultData]
    · obtain ⟨ys, hys⟩ := List.head?_eq_some_iff.mp hh
      have hrmem : r ∈ refEngine msem esem coll (aggregationPipeline o) := by
        rw [hys]
        exact List.mem_cons_self _ _
      rw [hpl] at hrmem
      obtain ⟨l2, hl2⟩ := refEngineAux_data_shape msem esem
        [SubStage.scount "total"] (dataSubOf o) _ coll r hrmem
      simp only [resultData]
      rw [hl2]
      calc (subDocs (runSub (dataSubOf o) l2)).length
          ≤ (runSub (dataSubOf o) l2).length := List.length_filterMap_le _ _
        _ ≤ m := length_runSub_data o m hm l2

/-- Witness for C3: page 2, max 1 over the three-document sample
collection — skip is 1 and a single record is returned. -/
theorem skip_formula_and_record_bound_witness :
    (({ page := .fin 2, max := .fin 1 } : PaginationOptions).page =
        JsNum.fin 2 ∧
      ({ page := .fin 2, max := .fin 1 } : PaginationOptions).max =
        JsNum.fin 1 ∧ (1 : ℕ) ≤ 2 ∧ (1 : ℕ) ≤ 1) ∧
    computedSkip { page := .fin 2, max := .fin 1 } =
      JsNum.fin (((2 - 1) * 1 : ℕ) : ℚ) ∧
    (mongoosePagination (refEngine (fun _ _ => true) (fun _ l => l) sampleColl)
      { page := .fin 2, max := .fin 1 }).data.length ≤ 1 := by
  have h := skip_formula_and_record_bound (fun _ _ => true) (fun _ l => l)
    sampleColl { page := .fin 2, max := .fin 1 } 2 1 rfl rfl
    (by decide) (by decide)
  exact ⟨⟨rfl, rfl, by decide, by decide⟩, h.1, h.2⟩

theorem applySub_nil (st : SubStage) : applySub [] st = [] := by
  cases st <;> simp [applySub, sortDesc]

theorem runSub_nil (sub : List SubStage) : runSub sub [] = [] := by
  unfold runSub
  simp only [List.map_nil]
  induction sub with
  | nil => rfl
  | cons st t ih =>
    rw [List.foldl_cons, applySub_nil st]
    exact ih

/-- C8: when nothing matches the composed filter, the `$count` sub-pipeline
emits nothing, the preserving `$unwind` keeps the reply document without
its `metadata` field, and the call still returns a complete result with
`total = 0`, `totalPages = 0` and no records — no error is raised. -/
theorem zero_matches_full_result (msem : FilterObj → Doc → Bool)
    (esem : ℕ → List Doc → List Doc) (coll : List Doc)
    (o : PaginationOptions) (m : ℕ)
    (hpipe : o.pipeline = []) (hm : o.max = JsNum.fin (m : ℚ)) (hm1 : 1 ≤ m)
    (hmatch : coll.filter (msem (combinedFilter o)) = []) :
    (mongoosePagination (refEngine msem esem coll) o).metadata.total = 0 ∧
    (mongoosePagination (refEngine msem esem coll) o).metadata.totalPages =
      JsNum.fin 0 ∧
    (mongoosePagination (refEngine msem esem coll) o).data = [] := by
  have hm0 : (m : ℚ) ≠ 0 := Nat.cast_ne_zero.mpr (by omega)
  have hpl : aggregationPipeline o =
      [Stage.smatch (combinedFilter o),
       Stage.sfacet [SubStage.scount "total"] (dataSubOf o),
       Stage.sunwind "$metadata" true] := by
    unfold aggregationPipeline dataSubOf
    rw [hpipe]
    simp
  have hreply : refEngine msem esem coll (aggregationPipeline o) =
      [{ metadata := none, data := [] }] := by
    rw [hpl]
    unfold refEngine
    simp only [refEngineAux, hmatch, runSub_nil, runPostFacet]
    rw [if_pos trivial]
    simp [unwindMeta, subDocs]
  simp only [mongoosePagination]
  rw [hreply]
  simp only [List.head?_cons, resultTotal, resultData]
  refine ⟨by trivial, ?_, by trivial⟩
  rw [hm]
  simp only [JsNum.div, if_neg hm0, JsNum.ceil]
  norm_num

/-- Witness for C8: a match semantics rejecting everything over the sample
collection, page size 5. -/
theorem zero_matches_full_result_witness :
    (({ max := JsNum.fin 5 } : PaginationOptions).pipeline = [] ∧
      ({ max := JsNum.fin 5 } : PaginationOptions).max =
        JsNum.fin ((5 : ℕ) : ℚ) ∧ (1 : ℕ) ≤ 5 ∧
      sampleColl.filter ((fun _ _ => false)
        (combinedFilter { max := JsNum.fin 5 })) = []) ∧
    (mongoosePagination (refEngine (fun _ _ => false) (fun _ l => l)
      sampleColl) { max := JsNum.fin 5 }).metadata.total = 0 ∧
    (mongoosePagination (refEngine (fun _ _ => false) (fun _ l => l)
      sampleColl) { max := JsNum.fin 5 }).metadata.totalPages =
      JsNum.fin 0 ∧
    (mongoosePagination (refEngine (fun _ _ => false) (fun _ l => l)
      sampleColl) { max := JsNum.fin 5 }).data = [] := by
  have h := zero_matches_full_result (fun _ _ => false) (fun _ l => l)
    sampleColl { max := JsNum.fin 5 } 5 rfl (by decide) (by decide)
    (by decide)
  exact ⟨⟨rfl, by decide, by decide, by decide⟩, h⟩

/-- C1: the claim (and the repository's own tests, which expect
`ErrorInvalidPage` / `ErrorInvalidMax` rejections) is contradicted by the
code: the orchestrator performs no validation of `page` or `max`. With
`page = 0` the skip becomes `-10`, the storage engine is still invoked and
a normal result envelope with the full collection is returned instead of
an invalid-page failure; with `max = NaN` the call likewise completes,
reporting `NaN` total pages. -/
theorem invalid_page_and_max_accepted :
    computedSkip { page := JsNum.fin 0 } = JsNum.fin (-10) ∧
    (mongoosePagination allEngine { page := JsNum.fin 0 }).metadata.total =
      3 ∧
    (mongoosePagination allEngine { page := JsNum.fin 0 }).data.length = 3 ∧
    (mongoosePagination allEngine { max := JsNum.nan }).metadata.total = 3 ∧
    (mongoosePagination allEngine { max := JsNum.nan }).metadata.totalPages =
      JsNum.nan := by
  have hskip : computedSkip { page := JsNum.fin 0 } = JsNum.fin (-10) := by
    unfold computedSkip
    simp only [JsNum.sub, JsNum.mul]
    norm_num
  have hcf : combinedFilter { page := JsNum.fin 0 } = [] := by decide
  have hpl : aggregationPipeline { page := JsNum.fin 0 } =
      [Stage.smatch [],
       Stage.sfacet [SubStage.scount "total"]
         [SubStage.ssort "createdAt" (-1), SubStage.sskip (JsNum.fin (-10)),
          SubStage.slimit (JsNum.fin 10)],
       Stage.sunwind "$metadata" true] := by
    unfold aggregationPipeline
    rw [hcf, hskip]
    simp
  have hrep : allEngine
      [Stage.smatch [],
       Stage.sfacet [SubStage.scount "total"]
         [SubStage.ssort "createdAt" (-1), SubStage.sskip (JsNum.fin (-10)),
          SubStage.slimit (JsNum.fin 10)],
       Stage.sunwind "$metadata" true] =
      [{ metadata := some (some 3),
         data := [{ createdAt := 3 }, { createdAt := 2 }, { createdAt := 1 }] }] := by
    decide
  refine ⟨hskip, ?_, ?_, by decide, by decide⟩
  · simp only [mongoosePagination]
    rw [hpl, hrep]
    decide
  · simp only [mongoosePagination]
    rw [hpl, hrep]
    decide

end MongoPagination
